import Mathlib

/-!
# Verification of the `tech-debt-score` analysis engine

A shallow embedding in Lean 4 of the core logic of the `tech-debt-score`
repository: density-normalized rule scoring, weight normalization and
aggregation, circular-dependency detection, duplicate-code detection, and
AST-driven complexity / nesting-depth extraction.

JavaScript numbers are modelled as `ℚ` (all arithmetic appearing in the
embedded code paths is exact decimal arithmetic on small values, so `ℚ`
matches the double-precision behaviour on every input considered here);
integer-valued quantities such as counts and cycle lengths are `ℕ`.
JavaScript `Set`/`Map` state is modelled as lists with explicit
membership checks; `throw` is modelled as `Option`/`none`.

The repository contains two revisions of some rule files.  Definitions
suffixed `V1` embed the superseded revision
(`src/domain/rules/CircularDependencyRule.ts` with scale factor 20 and
`src/domain/rules/DuplicationRule.ts` without density normalization); the
unsuffixed definitions embed the later revision (the density-normalized
rules with scale factors 10 / 1 / 8 / 10), which the repository's design
notes designate as the authoritative iteration.
-/

/-- Severity levels of a `Finding` (`shared/types.ts`). -/
inductive Severity where
  | low
  | medium
  | high
deriving DecidableEq, Repr

/-- `SourceLocation` from `shared/types.ts`. -/
structure SourceLocation where
  startLine : ℕ
  endLine : ℕ
  startColumn : ℕ
  endColumn : ℕ
deriving DecidableEq, Repr

/-- `Metric` from `domain/entities/Metric.ts`.  `value` is a JS number; every
metric built by the embedded code carries a natural-number value, so it is
modelled as `ℕ`. -/
structure Metric where
  name : String
  value : ℕ
  filePath : String
  location : Option SourceLocation := none
  context : Option String := none
deriving DecidableEq, Repr

/-- `Finding` from `domain/entities/Finding.ts` (the four fields required by
`FindingBuilder.build`, plus the optional ones). -/
structure Finding where
  ruleId : String
  severity : Severity
  message : String
  filePath : String
  location : Option SourceLocation := none
  suggestion : Option String := none
deriving DecidableEq, Repr

/-- `ScoreContext` from `domain/entities/Rule.ts`: `{ totalFiles: number }`. -/
structure ScoreContext where
  totalFiles : ℕ
deriving DecidableEq, Repr

/-- `CategoryScore` from `domain/entities/Score.ts`. -/
structure CategoryScore where
  name : String
  score : ℚ
  weight : ℚ
  description : Option String := none
deriving DecidableEq, Repr

/-- JavaScript `Math.round`: round half toward positive infinity,
`Math.round x = ⌊x + 1/2⌋` (stated via the executable `Rat.floor`). -/
def jsRound (q : ℚ) : ℤ := Rat.floor (q + 1/2)

/-- `Math.round(score * 100) / 100` — round to two decimal places, as done at
the end of every `calculateScore` and of `ScoreCalculator.calculateOverall`. -/
def round2 (q : ℚ) : ℚ := (jsRound (q * 100) : ℚ) / 100

/-- Severity points of `ComplexityRule.calculateScore`
(high 10 / medium 5 / low 2). -/
def complexityPoints : Severity → ℚ
  | .high => 10
  | .medium => 5
  | .low => 2

/-- Severity points of `DuplicationRule.calculateScore`
(high 15 / medium 8 / low 4). -/
def duplicationPoints : Severity → ℚ
  | .high => 15
  | .medium => 8
  | .low => 4

/-- Severity points of `SizeRule.calculateScore` (high 8 / medium 4 / low 2). -/
def sizePoints : Severity → ℚ
  | .high => 8
  | .medium => 4
  | .low => 2

/-- Severity points of `CircularDependencyRule.calculateScore`
(high 20 / medium 12 / low 6). -/
def circularPoints : Severity → ℚ
  | .high => 20
  | .medium => 12
  | .low => 6

/-- The shared shape of the density-normalized `calculateScore` bodies: fold
the severity points, convert to a per-file density when a `totalFiles > 0`
context is supplied, scale, clamp at 0 below and round to two decimals. -/
def densityScore (points : Severity → ℚ) (scale : ℚ)
    (findings : List Finding) (context : Option ScoreContext) : ℚ :=
  if findings.length = 0 then 100
  else
    let rawPenalty := findings.foldl (fun sum f => sum + points f.severity) 0
    let finalPenalty :=
      match context with
      | some ctx =>
          if 0 < ctx.totalFiles then rawPenalty / (ctx.totalFiles : ℚ) * scale
          else rawPenalty
      | none => rawPenalty
    round2 (max 0 (100 - finalPenalty))

/-- `ComplexityRule.calculateScore` (later revision, `ComplexityRule.ts`):
severity points 10/5/2, density scale factor 10. -/
def ComplexityRule.calculateScore
    (findings : List Finding) (context : Option ScoreContext) : ℚ :=
  densityScore complexityPoints 10 findings context

/-- `DuplicationRule.calculateScore` (later revision of
`DuplicationRule.ts`): severity points 15/8/4, density scale factor 8. -/
def DuplicationRule.calculateScore
    (findings : List Finding) (context : Option ScoreContext) : ℚ :=
  densityScore duplicationPoints 8 findings context

/-- `CircularDependencyRule.calculateScore` (later revision of
`CircularDependencyRule.ts`): severity points 20/12/6, density scale
factor 10. -/
def CircularDependencyRule.calculateScore
    (findings : List Finding) (context : Option ScoreContext) : ℚ :=
  densityScore circularPoints 10 findings context

/-- `CircularDependencyRule.calculateScore` of the superseded revision
(`src/domain/rules/CircularDependencyRule.ts`): identical except for the
density scale factor 20. -/
def CircularDependencyRuleV1.calculateScore
    (findings : List Finding) (context : Option ScoreContext) : ℚ :=
  densityScore circularPoints 20 findings context

/-- `SizeRule.calculateScore` (`SizeRule.ts`): no `context` parameter, raw
severity-point penalty (8/4/2), clamped below at 0 and rounded. -/
def SizeRule.calculateScore (findings : List Finding) : ℚ :=
  if findings.length = 0 then 100
  else
    let penalty := findings.foldl (fun sum f => sum + sizePoints f.severity) 0
    round2 (max 0 (100 - penalty))

/-- `DuplicationRule.calculateScore` of the superseded revision
(`src/domain/rules/DuplicationRule.ts`): no density normalization, the raw
severity-point penalty (15/8/4) is used directly. -/
def DuplicationRuleV1.calculateScore (findings : List Finding) : ℚ :=
  if findings.length = 0 then 100
  else
    let penalty :=
      findings.foldl (fun sum f => sum + duplicationPoints f.severity) 0
    round2 (max 0 (100 - penalty))

/-- Convert a digit run to a number, as `parseInt` does on the capture of
`/Found (\d+) usage/`. -/
def digitsToNat (ds : List Char) : ℕ :=
  ds.foldl (fun n c => 10 * n + (c.toNat - '0'.toNat)) 0

/-- Try to match the regex `Found (\d+) usage` at the head of the character
list: the literal `Found `, then one or more digits (greedy, which is exact
here since a digit cannot start ` usage`), then the literal ` usage`. -/
def matchFoundUsageHere (cs : List Char) : Option ℕ :=
  match cs with
  | 'F' :: 'o' :: 'u' :: 'n' :: 'd' :: ' ' :: rest =>
      let digits := rest.takeWhile (·.isDigit)
      let afterDigits := rest.dropWhile (·.isDigit)
      if digits.length = 0 then none
      else if (" usage".toList).isPrefixOf afterDigits then
        some (digitsToNat digits)
      else none
  | _ => none

/-- `message.match(/Found (\d+) usage/)`: the first match of the pattern
anywhere in the string, returning its captured number. -/
def findUsageCount (cs : List Char) : Option ℕ :=
  match cs with
  | [] => none
  | _ :: rest =>
      match matchFoundUsageHere cs with
      | some k => some k
      | none => findUsageCount rest

/-- `TypeSafetyRule.calculateScore` (`TypeSafetyRule.ts`): the total `any`
count is re-extracted from each finding's message (`/Found (\d+) usage/`,
defaulting to 1 when the pattern is absent), each usage costs 3 points, and
with a `totalFiles > 0` context the penalty is the density times scale
factor 1; without context the raw penalty is capped at 100. -/
def TypeSafetyRule.calculateScore
    (findings : List Finding) (context : Option ScoreContext) : ℚ :=
  if findings.length = 0 then 100
  else
    let totalAnyUsages := findings.foldl
      (fun sum f =>
        sum + ((findUsageCount f.message.toList).getD 1 : ℚ)) 0
    let rawPenalty := totalAnyUsages * 3
    let finalPenalty :=
      match context with
      | some ctx =>
          if 0 < ctx.totalFiles then rawPenalty / (ctx.totalFiles : ℚ) * 1
          else min 100 rawPenalty
      | none => min 100 rawPenalty
    round2 (max 0 (100 - finalPenalty))

/-- `AnalysisService.normalizeWeights`: rescale the weights to sum to 1,
distributing evenly when the provisional total is 0. -/
def AnalysisService.normalizeWeights
    (categories : List CategoryScore) : List CategoryScore :=
  let totalWeight := categories.foldl (fun sum cat => sum + cat.weight) 0
  if totalWeight = 0 then
    let evenWeight : ℚ := 1 / (categories.length : ℚ)
    categories.map fun cat => { cat with weight := evenWeight }
  else
    categories.map fun cat => { cat with weight := cat.weight / totalWeight }

/-- `ScoreCalculator.calculateOverall` (`domain/entities/Score.ts`): reject
(`throw`, modelled as `none`) when the weights do not sum to 1 within 0.01,
otherwise the weighted sum of scores rounded to two decimals. -/
def ScoreCalculator.calculateOverall (categories : List CategoryScore) : Option ℚ :=
  let totalWeight := categories.foldl (fun sum cat => sum + cat.weight) 0
  if 1/100 < |totalWeight - 1| then none
  else
    let weightedSum :=
      categories.foldl (fun sum cat => sum + cat.score * cat.weight) 0
    some (round2 weightedSum)

/-! ## Basic lemmas about the JS arithmetic helpers -/

theorem ratFloor_eq_intFloor (q : ℚ) : Rat.floor q = ⌊q⌋ :=
  (Rat.floor_def' q).trans Rat.floor_def.symm

theorem jsRound_eq (q : ℚ) : jsRound q = ⌊q + 1/2⌋ := ratFloor_eq_intFloor _

theorem round2_mono {a b : ℚ} (h : a ≤ b) : round2 a ≤ round2 b := by
  unfold round2
  rw [jsRound_eq, jsRound_eq]
  have hf : (⌊a * 100 + 1/2⌋ : ℚ) ≤ (⌊b * 100 + 1/2⌋ : ℚ) := by
    exact_mod_cast Int.floor_mono (by linarith)
  linarith

theorem foldl_add_eq_sum {α : Type} (g : α → ℚ) (l : List α) (a : ℚ) :
    l.foldl (fun sum x => sum + g x) a = a + (l.map g).sum := by
  induction l generalizing a with
  | nil => simp
  | cons x xs ih => simp [ih]; ring

/-! ## Spec-side formulations of the scoring formulas -/

/-- Spec-side raw penalty: the severity-point sum over a findings list. -/
def severitySum (points : Severity → ℚ) (findings : List Finding) : ℚ :=
  (findings.map fun f => points f.severity).sum

/-- Spec-side raw penalty of the TypeSafety rule: three points per `any`
usage, with the usage count of a finding read back from its message
(`/Found (\d+) usage/`, defaulting to 1). -/
def tsAnyUsagePenalty (findings : List Finding) : ℚ :=
  3 * (findings.map fun f => ((findUsageCount f.message.toList).getD 1 : ℚ)).sum

/-- The density formula stated by the specification:
`max(0, 100 − (rawPenalty / totalFiles) × scale)`, rounded to 2 decimals. -/
def specDensityFormula (rawPenalty scale : ℚ) (totalFiles : ℕ) : ℚ :=
  round2 (max 0 (100 - rawPenalty / (totalFiles : ℚ) * scale))

/-- C1 — For every density-normalized rule (Complexity, TypeSafety,
Duplication, CircularDependency), every non-empty findings list and every
context with `totalFiles > 0`, `calculateScore` returns
`max(0, 100 − (rawPenalty/totalFiles) × scale)` rounded to 2 decimal places,
with scale factors Complexity ×10, TypeSafety ×1, Duplication ×8,
CircularDependency ×10, the raw penalty being the rule's severity-point sum
(Complexity 10/5/2, Duplication 15/8/4, CircularDependency 20/12/6; for
TypeSafety, 3 points per extracted `any` usage). -/
theorem density_rules_score_formula
    (fs : List Finding) (n : ℕ) (hfs : fs ≠ []) (hn : 0 < n) :
    ComplexityRule.calculateScore fs (some ⟨n⟩) =
      specDensityFormula (severitySum complexityPoints fs) 10 n ∧
    TypeSafetyRule.calculateScore fs (some ⟨n⟩) =
      specDensityFormula (tsAnyUsagePenalty fs) 1 n ∧
    DuplicationRule.calculateScore fs (some ⟨n⟩) =
      specDensityFormula (severitySum duplicationPoints fs) 8 n ∧
    CircularDependencyRule.calculateScore fs (some ⟨n⟩) =
      specDensityFormula (severitySum circularPoints fs) 10 n := by
  have hlen : fs.length ≠ 0 := by simpa using hfs
  refine ⟨?_, ?_, ?_, ?_⟩ <;>
    simp only [ComplexityRule.calculateScore, TypeSafetyRule.calculateScore,
      DuplicationRule.calculateScore, CircularDependencyRule.calculateScore,
      densityScore, specDensityFormula, severitySum, tsAnyUsagePenalty,
      foldl_add_eq_sum, zero_add, hlen, if_false, hn, if_true]
  ring_nf

/-- C9 — Every rule returns exactly 100 on an empty findings list, with or
without a `totalFiles` context (the superseded rule revisions included). -/
theorem all_rules_empty_findings_score_100 (ctx : Option ScoreContext) :
    ComplexityRule.calculateScore [] ctx = 100 ∧
    SizeRule.calculateScore [] = 100 ∧
    TypeSafetyRule.calculateScore [] ctx = 100 ∧
    DuplicationRule.calculateScore [] ctx = 100 ∧
    CircularDependencyRule.calculateScore [] ctx = 100 ∧
    DuplicationRuleV1.calculateScore [] = 100 ∧
    CircularDependencyRuleV1.calculateScore [] ctx = 100 := by
  refine ⟨?_, ?_, ?_, ?_, ?_, ?_, ?_⟩ <;>
    simp [ComplexityRule.calculateScore, SizeRule.calculateScore,
      TypeSafetyRule.calculateScore, DuplicationRule.calculateScore,
      CircularDependencyRule.calculateScore, DuplicationRuleV1.calculateScore,
      CircularDependencyRuleV1.calculateScore, densityScore]

/-- Doubling `totalFiles` cannot decrease a density-normalized severity-sum
score. -/
theorem densityScore_doubling (points : Severity → ℚ) (scale : ℚ)
    (hpts : ∀ s, 0 ≤ points s) (hscale : 0 ≤ scale)
    (fs : List Finding) (n : ℕ) (hn : 0 < n) :
    densityScore points scale fs (some ⟨n⟩) ≤
      densityScore points scale fs (some ⟨2 * n⟩) := by
  by_cases hlen : fs.length = 0
  · simp [densityScore, hlen]
  · have hraw : 0 ≤ (fs.map fun f => points f.severity).sum :=
      List.sum_nonneg (by
        intro x hx
        obtain ⟨f, _, rfl⟩ := List.mem_map.1 hx
        exact hpts f.severity)
    have h2n : 0 < 2 * n := by omega
    simp only [densityScore, hlen, if_false, hn, h2n, if_true,
      foldl_add_eq_sum, zero_add]
    apply round2_mono
    apply max_le_max le_rfl
    have hn' : (0 : ℚ) < (n : ℚ) := by exact_mod_cast hn
    have hcast : ((2 * n : ℕ) : ℚ) = 2 * (n : ℚ) := by push_cast; ring
    have hdiv : (fs.map fun f => points f.severity).sum / ((2 * n : ℕ) : ℚ) ≤
        (fs.map fun f => points f.severity).sum / (n : ℚ) := by
      rw [hcast, div_eq_mul_inv, div_eq_mul_inv]
      apply mul_le_mul_of_nonneg_left _ hraw
      rw [← one_div, ← one_div]
      exact one_div_le_one_div_of_le hn' (by linarith)
    have := mul_le_mul_of_nonneg_right hdiv hscale
    linarith

/-- Doubling `totalFiles` cannot decrease the TypeSafety score. -/
theorem typeSafetyScore_doubling (fs : List Finding) (n : ℕ) (hn : 0 < n) :
    TypeSafetyRule.calculateScore fs (some ⟨n⟩) ≤
      TypeSafetyRule.calculateScore fs (some ⟨2 * n⟩) := by
  by_cases hlen : fs.length = 0
  · simp [TypeSafetyRule.calculateScore, hlen]
  · have hraw : 0 ≤
        (fs.map fun f => ((findUsageCount f.message.toList).getD 1 : ℚ)).sum :=
      List.sum_nonneg (by
        intro x hx
        obtain ⟨f, _, rfl⟩ := List.mem_map.1 hx
        positivity)
    have h2n : 0 < 2 * n := by omega
    simp only [TypeSafetyRule.calculateScore, hlen, if_false, hn, h2n, if_true,
      foldl_add_eq_sum, zero_add]
    apply round2_mono
    apply max_le_max le_rfl
    have hn' : (0 : ℚ) < (n : ℚ) := by exact_mod_cast hn
    have hcast : ((2 * n : ℕ) : ℚ) = 2 * (n : ℚ) := by push_cast; ring
    have hdiv :
        (fs.map fun f => ((findUsageCount f.message.toList).getD 1 : ℚ)).sum * 3 /
            ((2 * n : ℕ) : ℚ) ≤
          (fs.map fun f => ((findUsageCount f.message.toList).getD 1 : ℚ)).sum * 3 /
            (n : ℚ) := by
      rw [hcast, div_eq_mul_inv, div_eq_mul_inv]
      apply mul_le_mul_of_nonneg_left _ (by linarith)
      rw [← one_div, ← one_div]
      exact one_div_le_one_div_of_le hn' (by linarith)
    linarith

/-- C7 — For each density-normalized rule and any fixed findings list,
doubling `totalFiles` (with `totalFiles > 0`) never decreases the computed
score: the score is monotonically non-decreasing in the file count. -/
theorem density_rules_monotone_in_totalFiles
    (fs : List Finding) (n : ℕ) (hn : 0 < n) :
    ComplexityRule.calculateScore fs (some ⟨n⟩) ≤
      ComplexityRule.calculateScore fs (some ⟨2 * n⟩) ∧
    TypeSafetyRule.calculateScore fs (some ⟨n⟩) ≤
      TypeSafetyRule.calculateScore fs (some ⟨2 * n⟩) ∧
    DuplicationRule.calculateScore fs (some ⟨n⟩) ≤
      DuplicationRule.calculateScore fs (some ⟨2 * n⟩) ∧
    CircularDependencyRule.calculateScore fs (some ⟨n⟩) ≤
      CircularDependencyRule.calculateScore fs (some ⟨2 * n⟩) := by
  refine ⟨?_, typeSafetyScore_doubling fs n hn, ?_, ?_⟩
  · exact densityScore_doubling complexityPoints 10
      (by intro s; cases s <;> norm_num [complexityPoints]) (by norm_num) fs n hn
  · exact densityScore_doubling duplicationPoints 8
      (by intro s; cases s <;> norm_num [duplicationPoints]) (by norm_num) fs n hn
  · exact densityScore_doubling circularPoints 10
      (by intro s; cases s <;> norm_num [circularPoints]) (by norm_num) fs n hn

/-! ## Weight normalization and score aggregation -/

/-- The weights of a category list, summed (spec-side formulation). -/
def weightSum (categories : List CategoryScore) : ℚ :=
  (categories.map fun cat => cat.weight).sum

theorem foldl_weight_eq_weightSum (categories : List CategoryScore) :
    categories.foldl (fun sum cat => sum + cat.weight) 0 = weightSum categories := by
  rw [weightSum, foldl_add_eq_sum, zero_add]

/-- After `normalizeWeights`, the weights of a non-empty category list sum to
exactly 1 (no non-negativity needed: the zero-total branch distributes `1/n`
evenly, the other branch rescales by the total). -/
theorem normalizeWeights_weightSum (categories : List CategoryScore)
    (hne : categories ≠ []) :
    weightSum (AnalysisService.normalizeWeights categories) = 1 := by
  have hlen : (categories.length : ℚ) ≠ 0 := by
    have := List.length_pos.2 hne
    exact_mod_cast this.ne'
  unfold AnalysisService.normalizeWeights
  rw [foldl_weight_eq_weightSum]
  by_cases h0 : weightSum categories = 0
  · rw [if_pos h0]
    unfold weightSum
    rw [List.map_map]
    have hcomp : ((fun (cat : CategoryScore) => cat.weight) ∘
        fun cat => { cat with weight := 1 / (categories.length : ℚ) }) =
        fun (_ : CategoryScore) => 1 / (categories.length : ℚ) := rfl
    rw [hcomp, List.map_const', List.sum_replicate, nsmul_eq_mul,
      mul_one_div, div_self hlen]
  · rw [if_neg h0]
    unfold weightSum
    rw [List.map_map]
    have hcomp : ((fun (cat : CategoryScore) => cat.weight) ∘
        fun cat => { cat with weight :=
          cat.weight / (categories.map fun cat => cat.weight).sum }) =
        fun (cat : CategoryScore) =>
          cat.weight * ((categories.map fun cat => cat.weight).sum)⁻¹ := by
      funext cat
      simp [div_eq_mul_inv]
    rw [hcomp, List.sum_map_mul_right]
    exact mul_inv_cancel₀ (by simpa [weightSum] using h0)

/-- C3 — For every non-empty list of CategoryScores with non-negative
weights, the normalized weights sum to 1.0 within 1e-9 (they sum to exactly
1), and if every input weight is 0 every normalized weight is `1/n`. -/
theorem normalizeWeights_sum_one_and_even
    (categories : List CategoryScore) (hne : categories ≠ [])
    (hw : ∀ c ∈ categories, 0 ≤ c.weight) :
    |weightSum (AnalysisService.normalizeWeights categories) - 1| ≤
      1 / 1000000000 ∧
    ((∀ c ∈ categories, c.weight = 0) →
      ∀ c ∈ AnalysisService.normalizeWeights categories,
        c.weight = 1 / (categories.length : ℚ)) := by
  constructor
  · rw [normalizeWeights_weightSum categories hne]
    norm_num
  · intro hzero c hc
    have h0 : categories.foldl (fun sum cat => sum + cat.weight) 0 = 0 := by
      rw [foldl_weight_eq_weightSum, weightSum]
      apply List.sum_eq_zero
      intro x hx
      obtain ⟨cat, hcat, rfl⟩ := List.mem_map.1 hx
      exact hzero cat hcat
    rw [AnalysisService.normalizeWeights, h0] at hc
    simp only [if_true] at hc
    obtain ⟨cat, _, rfl⟩ := List.mem_map.1 hc
    rfl

/-- Witness for C3 at a concrete all-zero-weight singleton. -/
theorem normalizeWeights_sum_one_and_even_witness :
    ([⟨"complexity", 50, 0, none⟩] : List CategoryScore) ≠ [] ∧
    (∀ c ∈ ([⟨"complexity", 50, 0, none⟩] : List CategoryScore), 0 ≤ c.weight) ∧
    (|weightSum (AnalysisService.normalizeWeights [⟨"complexity", 50, 0, none⟩]) - 1| ≤
        1 / 1000000000 ∧
      ((∀ c ∈ ([⟨"complexity", 50, 0, none⟩] : List CategoryScore), c.weight = 0) →
        ∀ c ∈ AnalysisService.normalizeWeights [⟨"complexity", 50, 0, none⟩],
          c.weight = 1 / (([⟨"complexity", 50, 0, none⟩] : List CategoryScore).length : ℚ))) :=
  ⟨by simp, by norm_num,
    normalizeWeights_sum_one_and_even [⟨"complexity", 50, 0, none⟩]
      (by simp) (by norm_num)⟩

/-- C4 counterexample — the claim says the error branch of
`calculateOverall` is unreachable for *every* output of `normalizeWeights`,
but the empty category list is normalized to the empty list, whose weights
sum to 0, and `calculateOverall` then reports the weight-invariant error
(modelled as `none`). -/
theorem calculateOverall_empty_normalized_error :
    ScoreCalculator.calculateOverall (AnalysisService.normalizeWeights []) =
      none := by
  norm_num [ScoreCalculator.calculateOverall, AnalysisService.normalizeWeights,
    abs_sub_comm]

/-- C4 (amended) — `calculateOverall` reports an error exactly when the
category weights do not sum to 1.0 within 0.01; and for every *non-empty*
list of CategoryScores the output of `normalizeWeights` always passes the
tolerance check (for the empty list the error branch is reached). -/
theorem calculateOverall_error_iff_tolerance
    (categories : List CategoryScore) (hne : categories ≠ []) :
    (∀ cats : List CategoryScore,
      ScoreCalculator.calculateOverall cats = none ↔
        1 / 100 < |weightSum cats - 1|) ∧
    (ScoreCalculator.calculateOverall
        (AnalysisService.normalizeWeights categories)).isSome = true := by
  constructor
  · intro cats
    unfold ScoreCalculator.calculateOverall
    rw [foldl_weight_eq_weightSum]
    by_cases h : 1 / 100 < |weightSum cats - 1|
    · simp [h]
    · simp [h]
  · unfold ScoreCalculator.calculateOverall
    rw [foldl_weight_eq_weightSum, normalizeWeights_weightSum categories hne]
    norm_num

/-- Witness for C4 (amended) at a concrete singleton list. -/
theorem calculateOverall_error_iff_tolerance_witness :
    ([⟨"size", 80, 1/4, none⟩] : List CategoryScore) ≠ [] ∧
    ((∀ cats : List CategoryScore,
        ScoreCalculator.calculateOverall cats = none ↔
          1 / 100 < |weightSum cats - 1|) ∧
      (ScoreCalculator.calculateOverall
          (AnalysisService.normalizeWeights [⟨"size", 80, 1/4, none⟩])).isSome =
        true) :=
  ⟨by simp, calculateOverall_error_iff_tolerance [⟨"size", 80, 1/4, none⟩] (by simp)⟩

/-- Witness for C1 at one concrete high-severity finding and `totalFiles = 1`. -/
theorem density_rules_score_formula_witness :
    ([({ruleId := "complexity", severity := .high, message := "m",
        filePath := "f.ts"} : Finding)] ≠ ([] : List Finding)) ∧ 0 < 1 ∧
    (ComplexityRule.calculateScore
        [{ruleId := "complexity", severity := .high, message := "m",
          filePath := "f.ts"}] (some ⟨1⟩) =
      specDensityFormula
        (severitySum complexityPoints
          [{ruleId := "complexity", severity := .high, message := "m",
            filePath := "f.ts"}]) 10 1 ∧
    TypeSafetyRule.calculateScore
        [{ruleId := "complexity", severity := .high, message := "m",
          filePath := "f.ts"}] (some ⟨1⟩) =
      specDensityFormula
        (tsAnyUsagePenalty
          [{ruleId := "complexity", severity := .high, message := "m",
            filePath := "f.ts"}]) 1 1 ∧
    DuplicationRule.calculateScore
        [{ruleId := "complexity", severity := .high, message := "m",
          filePath := "f.ts"}] (some ⟨1⟩) =
      specDensityFormula
        (severitySum duplicationPoints
          [{ruleId := "complexity", severity := .high, message := "m",
            filePath := "f.ts"}]) 8 1 ∧
    CircularDependencyRule.calculateScore
        [{ruleId := "complexity", severity := .high, message := "m",
          filePath := "f.ts"}] (some ⟨1⟩) =
      specDensityFormula
        (severitySum circularPoints
          [{ruleId := "complexity", severity := .high, message := "m",
            filePath := "f.ts"}]) 10 1) :=
  ⟨by simp, by norm_num,
    density_rules_score_formula
      [{ruleId := "complexity", severity := .high, message := "m",
        filePath := "f.ts"}] 1 (by simp) (by norm_num)⟩

/-- Witness for C7 at one concrete medium-severity finding, `totalFiles`
5 versus 10. -/
theorem density_rules_monotone_in_totalFiles_witness :
    0 < 5 ∧
    (ComplexityRule.calculateScore
        [{ruleId := "complexity", severity := .medium, message := "m",
          filePath := "f.ts"}] (some ⟨5⟩) ≤
      ComplexityRule.calculateScore
        [{ruleId := "complexity", severity := .medium, message := "m",
          filePath := "f.ts"}] (some ⟨2 * 5⟩) ∧
    TypeSafetyRule.calculateScore
        [{ruleId := "complexity", severity := .medium, message := "m",
          filePath := "f.ts"}] (some ⟨5⟩) ≤
      TypeSafetyRule.calculateScore
        [{ruleId := "complexity", severity := .medium, message := "m",
          filePath := "f.ts"}] (some ⟨2 * 5⟩) ∧
    DuplicationRule.calculateScore
        [{ruleId := "complexity", severity := .medium, message := "m",
          filePath := "f.ts"}] (some ⟨5⟩) ≤
      DuplicationRule.calculateScore
        [{ruleId := "complexity", severity := .medium, message := "m",
          filePath := "f.ts"}] (some ⟨2 * 5⟩) ∧
    CircularDependencyRule.calculateScore
        [{ruleId := "complexity", severity := .medium, message := "m",
          filePath := "f.ts"}] (some ⟨5⟩) ≤
      CircularDependencyRule.calculateScore
        [{ruleId := "complexity", severity := .medium, message := "m",
          filePath := "f.ts"}] (some ⟨2 * 5⟩)) :=
  ⟨by norm_num,
    density_rules_monotone_in_totalFiles
      [{ruleId := "complexity", severity := .medium, message := "m",
        filePath := "f.ts"}] 5 (by norm_num)⟩

/-! ## Dependency analyzer (`DependencyAnalyzer.ts`)

The dependency graph is the `Map` built by `analyzeDependencies`, modelled as
an association list of nodes in insertion order (keys distinct).  The mutable
`visited` / `recursionStack` / `cycles` sets of `detectCircularDependencies`
are lists with explicit membership checks, and the recursion is made total
with a fuel argument chosen large enough that it is never exhausted (the
JavaScript recursion depth is bounded by the number of distinct paths, each
`dfs` call marking its argument visited). -/

/-- `DependencyNode` from `DependencyAnalyzer.ts`. -/
structure DepNode where
  filePath : String
  imports : List String
deriving DecidableEq, Repr

/-- `Set.add`: insert only when absent. -/
def setInsert (x : String) (s : List String) : List String :=
  if x ∈ s then s else x :: s

/-- `Array.prototype.indexOf`: index of the first occurrence, if any
(`-1` modelled as `none`). -/
def jsIndexOf (l : List String) (x : String) : Option ℕ :=
  match l with
  | [] => none
  | y :: ys => if y = x then some 0 else (jsIndexOf ys x).map (· + 1)

/-- Insertion into an ascending list, by the `<` order on strings (JS
`Array.prototype.sort` compares strings by code units; on the file-path
strings considered here this is the character order used by `String.lt`). -/
def insertSorted (x : String) : List String → List String
  | [] => [x]
  | y :: ys => if x < y then x :: y :: ys else y :: insertSorted x ys

/-- `[...cycle].sort()`. -/
def sortStrings : List String → List String
  | [] => []
  | x :: xs => insertSorted x (sortStrings xs)

/-- `[...cycle].sort().join('->')` — the canonical deduplication key of a
cycle. -/
def cycleSortKey (cycle : List String) : String :=
  String.intercalate "->" (sortStrings cycle)

/-- `filePath.split('/')`, on character lists. -/
def splitSlashAux : List Char → List Char → List (List Char)
  | acc, [] => [acc.reverse]
  | acc, '/' :: rest => acc.reverse :: splitSlashAux [] rest
  | acc, c :: rest => splitSlashAux (c :: acc) rest

/-- `DependencyAnalyzer.getFileName`: the part after the last `/`
(`parts[parts.length - 1] ?? filePath`). -/
def getFileName (filePath : String) : String :=
  let parts := (splitSlashAux [] filePath.toList).map fun cs => String.mk cs
  parts.getLast?.getD filePath

/-- The `circular-dependency` Metric built for a discovered cycle. -/
def mkCycleMetric (filePath : String) (cycle : List String) : Metric :=
  { name := "circular-dependency"
    value := cycle.length
    filePath := filePath
    location := none
    context := some (String.intercalate " → " (cycle.map getFileName)) }

/-- The mutable state of `detectCircularDependencies`. -/
structure DfsState where
  visited : List String
  recursionStack : List String
  cycles : List String
  metrics : List Metric
deriving DecidableEq, Repr

/-- The body of the `for (const importPath of node.imports)` loop of `dfs`,
parametric in the recursive call `rec`. -/
def processImport (rec : String → List String → DfsState → DfsState)
    (filePath : String) (path : List String) (st : DfsState)
    (importPath : String) : DfsState :=
  if importPath ∈ st.visited then
    if importPath ∈ st.recursionStack then
      match jsIndexOf path importPath with
      | some cycleStart =>
          let cycle := path.drop cycleStart ++ [importPath]
          let cycleKey := cycleSortKey cycle
          if cycleKey ∈ st.cycles then st
          else { st with
                  cycles := setInsert cycleKey st.cycles
                  metrics := st.metrics ++ [mkCycleMetric filePath cycle] }
      | none => st
    else st
  else rec importPath (path ++ [filePath]) st

/-- The import loop of `dfs`. -/
def processImports (rec : String → List String → DfsState → DfsState)
    (filePath : String) (path : List String) :
    List String → DfsState → DfsState
  | [], st => st
  | imp :: rest, st =>
      processImports rec filePath path rest
        (processImport rec filePath path st imp)

/-- The recursive `dfs` closure of `detectCircularDependencies`, with fuel. -/
def dfs (g : List DepNode) : ℕ → String → List String → DfsState → DfsState
  | 0, _, _, st => st
  | fuel + 1, filePath, path, st =>
    if filePath ∈ st.cycles then st
    else
      let st1 := { st with
                    visited := setInsert filePath st.visited
                    recursionStack := setInsert filePath st.recursionStack }
      match g.find? (fun node => node.filePath = filePath) with
      | none => { st1 with recursionStack := st1.recursionStack.erase filePath }
      | some node =>
          let st2 := processImports
            (fun ip p s => dfs g fuel ip p s) filePath path node.imports st1
          { st2 with recursionStack := st2.recursionStack.erase filePath }

/-- Fuel that the JavaScript recursion can never exhaust: every `dfs` call is
on a path not yet visited and marks it visited, so the call depth is bounded
by the number of node keys plus the number of import edges. -/
def detectFuel (g : List DepNode) : ℕ :=
  g.length + (g.map fun node => node.imports.length).sum + 1

/-- The `for (const filePath of this.dependencyGraph.keys())` driver loop of
`detectCircularDependencies`, returning the final state. -/
def runDetect (g : List DepNode) : DfsState :=
  g.foldl
    (fun st node =>
      if node.filePath ∈ st.visited then st
      else dfs g (detectFuel g) node.filePath [] st)
    ⟨[], [], [], []⟩

/-- `DependencyAnalyzer.detectCircularDependencies`: the metrics collected by
the DFS over every unvisited node. -/
def DependencyAnalyzer.detectCircularDependencies (g : List DepNode) : List Metric :=
  (runDetect g).metrics

theorem jsIndexOf_lt_length {l : List String} {x : String} {i : ℕ}
    (h : jsIndexOf l x = some i) : i < l.length := by
  induction l generalizing i with
  | nil => simp [jsIndexOf] at h
  | cons y ys ih =>
      rw [jsIndexOf] at h
      by_cases hyx : y = x
      · simp only [hyx, if_true] at h
        cases h
        simp
      · simp only [hyx, if_false] at h
        cases hrec : jsIndexOf ys x with
        | none => rw [hrec] at h; simp at h
        | some j =>
            rw [hrec] at h
            simp only [Option.map_some'] at h
            cases h
            have := ih hrec
            simp
            omega

/-- The invariant maintained by the cycle DFS: the set of canonical cycle
keys has no duplicates, one metric has been emitted per recorded key, and
every emitted metric's value (the cycle length) is at least 2. -/
def MetricsInv (st : DfsState) : Prop :=
  st.cycles.Nodup ∧ st.metrics.length = st.cycles.length ∧
    ∀ m ∈ st.metrics, 2 ≤ m.value

theorem processImport_inv {rec : String → List String → DfsState → DfsState}
    (hrec : ∀ ip p s, MetricsInv s → MetricsInv (rec ip p s))
    (fp : String) (path : List String) (st : DfsState) (imp : String)
    (h : MetricsInv st) : MetricsInv (processImport rec fp path st imp) := by
  unfold processImport
  split
  · split
    · cases hidx : jsIndexOf path imp with
      | none => simp only [hidx]; exact h
      | some cycleStart =>
          simp only [hidx]
          split
          · exact h
          · next hkey =>
              obtain ⟨hnd, hlen, hval⟩ := h
              have hset : setInsert (cycleSortKey (path.drop cycleStart ++ [imp]))
                  st.cycles =
                  cycleSortKey (path.drop cycleStart ++ [imp]) :: st.cycles := by
                rw [setInsert, if_neg hkey]
              refine ⟨?_, ?_, ?_⟩
              · simp only [hset]
                exact List.nodup_cons.2 ⟨hkey, hnd⟩
              · simp only [hset, List.length_append, List.length_cons,
                  List.length_nil, hlen]
              · intro m hm
                simp only [List.mem_append, List.mem_singleton] at hm
                rcases hm with hm | rfl
                · exact hval m hm
                · have hi := jsIndexOf_lt_length hidx
                  simp only [mkCycleMetric, List.length_append,
                    List.length_drop, List.length_cons, List.length_nil]
                  omega
    · exact h
  · exact hrec _ _ _ h

theorem processImports_inv {rec : String → List String → DfsState → DfsState}
    (hrec : ∀ ip p s, MetricsInv s → MetricsInv (rec ip p s))
    (fp : String) (path : List String) :
    ∀ (imps : List String) (st : DfsState), MetricsInv st →
      MetricsInv (processImports rec fp path imps st) := by
  intro imps
  induction imps with
  | nil => intro st h; simpa [processImports] using h
  | cons imp rest ih =>
      intro st h
      rw [processImports]
      exact ih _ (processImport_inv hrec fp path st imp h)

theorem dfs_inv (g : List DepNode) :
    ∀ (fuel : ℕ) (fp : String) (path : List String) (st : DfsState),
      MetricsInv st → MetricsInv (dfs g fuel fp path st) := by
  intro fuel
  induction fuel with
  | zero => intro fp path st h; simpa [dfs] using h
  | succ fuel ih =>
      intro fp path st h
      rw [dfs]
      split
      · exact h
      · cases hfind : g.find? (fun node => node.filePath = fp) with
        | none => simp only [hfind]; exact h
        | some node =>
            simp only [hfind]
            have := processImports_inv
              (fun ip p s hs => ih ip p s hs) fp path node.imports
              { st with
                  visited := setInsert fp st.visited
                  recursionStack := setInsert fp st.recursionStack } h
            exact this

theorem runDetect_inv (g : List DepNode) : MetricsInv (runDetect g) := by
  unfold runDetect
  have hstep : ∀ (nodes : List DepNode) (st : DfsState), MetricsInv st →
      MetricsInv (nodes.foldl
        (fun st node =>
          if node.filePath ∈ st.visited then st
          else dfs g (detectFuel g) node.filePath [] st) st) := by
    intro nodes
    induction nodes with
    | nil => intro st h; simpa using h
    | cons node rest ih =>
        intro st h
        rw [List.foldl_cons]
        apply ih
        split
        · exact h
        · exact dfs_inv g (detectFuel g) node.filePath [] st h
  exact hstep g ⟨[], [], [], []⟩ ⟨List.nodup_nil, rfl, by simp⟩

/-- C5 — The three-file graph A→B→C→A yields exactly one
`circular-dependency` Metric with value 3; and for every graph the DFS
reports each cycle at most once (the canonical cycle keys are distinct and
exactly one metric is emitted per recorded key) even when a cycle is
reachable from several entry points. -/
theorem cycle_detection_abc_and_dedup :
    (DependencyAnalyzer.detectCircularDependencies
        [⟨"src/A.ts", ["src/B.ts"]⟩, ⟨"src/B.ts", ["src/C.ts"]⟩,
         ⟨"src/C.ts", ["src/A.ts"]⟩]).map (fun m => (m.name, m.value)) =
      [("circular-dependency", 3)] ∧
    ∀ g : List DepNode,
      (runDetect g).cycles.Nodup ∧
        (DependencyAnalyzer.detectCircularDependencies g).length =
          (runDetect g).cycles.length := by
  refine ⟨by decide, ?_⟩
  intro g
  obtain ⟨h1, h2, _⟩ := runDetect_inv g
  exact ⟨h1, h2⟩

/-- C10 — A self-import (a cycle of length 1) is never reported: on the
graph consisting only of a self-importing file `detectCircularDependencies`
emits nothing (likewise when the self-loop is reached from another file),
and in general every emitted metric has cycle length at least 2, so no
length-1 cycle is ever represented. -/
theorem self_import_not_reported :
    DependencyAnalyzer.detectCircularDependencies
        [⟨"src/A.ts", ["src/A.ts"]⟩] = [] ∧
    DependencyAnalyzer.detectCircularDependencies
        [⟨"src/A.ts", ["src/B.ts"]⟩, ⟨"src/B.ts", ["src/B.ts"]⟩] = [] ∧
    ∀ g : List DepNode,
      ∀ m ∈ DependencyAnalyzer.detectCircularDependencies g, 2 ≤ m.value := by
  refine ⟨by decide, by decide, ?_⟩
  intro g m hm
  exact (runDetect_inv g).2.2 m hm

/-- Witness for C10's universally quantified part, at the two-file cycle
A→B→A whose single reported metric has value 2. -/
theorem self_import_not_reported_witness :
    ({ name := "circular-dependency", value := 2, filePath := "src/B.ts",
       location := none, context := some "A.ts → A.ts" } : Metric) ∈
      DependencyAnalyzer.detectCircularDependencies
        [⟨"src/A.ts", ["src/B.ts"]⟩, ⟨"src/B.ts", ["src/A.ts"]⟩] ∧
    2 ≤ ({ name := "circular-dependency", value := 2, filePath := "src/B.ts",
           location := none, context := some "A.ts → A.ts" } : Metric).value :=
  ⟨by decide,
    self_import_not_reported.2.2
      [⟨"src/A.ts", ["src/B.ts"]⟩, ⟨"src/B.ts", ["src/A.ts"]⟩]
      { name := "circular-dependency", value := 2, filePath := "src/B.ts",
        location := none, context := some "A.ts → A.ts" } (by decide)⟩

/-! ## Duplication detector (`DuplicationDetector.ts`)

`analyzeFile` walks the parse tree of each file and pushes a `CodeBlock` for
every function-like node whose normalized token string reaches the minimum
size; the AST walk itself is performed by the external TypeScript parser, so
the embedding starts from the source texts of the extracted function-like
nodes and models `tokenize`, the block filter and `detectDuplicates`
faithfully. -/

/-- The JavaScript `\s` class, restricted to the ASCII whitespace characters
(all inputs considered here are ASCII). -/
def isJsWhitespace (c : Char) : Bool :=
  c = ' ' || c = '\t' || c = '\n' || c = '\r' || c = '\x0b' || c = '\x0c'

/-- `.replace(/\s+/g, ' ')`: collapse every whitespace run to one space.  The
flag records whether we are inside a run whose first character was already
replaced. -/
def normWsAux : Bool → List Char → List Char
  | _, [] => []
  | inRun, c :: rest =>
      if isJsWhitespace c then
        if inRun then normWsAux true rest else ' ' :: normWsAux true rest
      else c :: normWsAux false rest

/-- Does the list contain a `*/` closer (needed because the non-greedy
`/\*[\s\S]*?\*\//` matches nothing when no closer follows)? -/
def hasBlockCommentClose : List Char → Bool
  | '*' :: '/' :: _ => true
  | _ :: rest => hasBlockCommentClose rest
  | [] => false

mutual

/-- `.replace(/\/\*[\s\S]*?\*\//g, '')`: drop each `/* ... */` with the
nearest closer; an unclosed `/*` is left in place. -/
def stripBlockComments : List Char → List Char
  | '/' :: '*' :: rest =>
      if hasBlockCommentClose rest then skipBlockComment rest
      else '/' :: '*' :: rest
  | c :: rest => c :: stripBlockComments rest
  | [] => []

/-- Skip up to and including the nearest `*/`. -/
def skipBlockComment : List Char → List Char
  | '*' :: '/' :: rest => stripBlockComments rest
  | _ :: rest => skipBlockComment rest
  | [] => []

end

mutual

/-- `.replace(/\/\/.*/g, '')`: drop everything from `//` to the next newline
(exclusive) or the end of the string.  Note the source applies this *after*
whitespace normalization, so in `tokenize` a line comment swallows the whole
remainder of the block. -/
def stripLineComments : List Char → List Char
  | '/' :: '/' :: rest => skipLineComment rest
  | c :: rest => c :: stripLineComments rest
  | [] => []

/-- Skip to the next newline (the `.` of the regex does not match it). -/
def skipLineComment : List Char → List Char
  | '\n' :: rest => '\n' :: stripLineComments rest
  | _ :: rest => skipLineComment rest
  | [] => []

end

/-- `String.prototype.trim` on ASCII input. -/
def jsTrim (cs : List Char) : List Char :=
  ((cs.dropWhile isJsWhitespace).reverse.dropWhile isJsWhitespace).reverse

/-- `DuplicationDetector.tokenize`: whitespace normalization, then block
comment removal, then line comment removal, then trim. -/
def tokenize (code : String) : String :=
  String.mk (jsTrim (stripLineComments (stripBlockComments
    (normWsAux false code.toList))))

/-- The Levenshtein edit distance, as the prefix recurrence computed by the
source's dynamic-programming matrix (`matrix[i][j]` is the distance between
the first `i` characters of one string and the first `j` of the other, with
unit insertion / deletion / substitution costs). -/
def levenshteinDistance : List Char → List Char → ℕ
  | [], ys => ys.length
  | xs, [] => xs.length
  | x :: xs, y :: ys =>
      min (levenshteinDistance xs (y :: ys) + 1)
        (min (levenshteinDistance (x :: xs) ys + 1)
          (levenshteinDistance xs ys + if x = y then 0 else 1))

/-- `DuplicationDetector.calculateSimilarity`: 1 for equal token strings,
otherwise `1 − distance / max(len1, len2)` (1 when both are empty). -/
def calculateSimilarity (tokens1 tokens2 : String) : ℚ :=
  if tokens1 = tokens2 then 1
  else
    let maxLen := max tokens1.length tokens2.length
    if maxLen = 0 then 1
    else 1 - (levenshteinDistance tokens1.toList tokens2.toList : ℚ) / (maxLen : ℚ)

/-- `CodeBlock` from `DuplicationDetector.ts`. -/
structure CodeBlock where
  filePath : String
  tokens : String
  startLine : ℕ
  endLine : ℕ
  functionName : Option String := none
deriving DecidableEq, Repr

/-- The `code-duplication` Metric pushed for a group leader block. -/
def dupMetric (block : CodeBlock) (duplicateCount : ℕ) : Metric :=
  { name := "code-duplication"
    value := duplicateCount
    filePath := block.filePath
    location := some ⟨block.startLine, block.endLine, 0, 0⟩
    context := some (block.functionName.getD "code block") }

/-- `DuplicationDetector.detectDuplicates`: greedy pairwise matching over
the accumulated blocks.  Each later block `j` with similarity ≥ 0.85 to the
current leader `i` is marked `seen` and counted; a leader with a positive
count yields one metric. -/
def DuplicationDetector.detectDuplicates (codeBlocks : List CodeBlock) :
    List Metric :=
  let n := codeBlocks.length
  let result := (List.range n).foldl
    (fun (acc : List Metric × List ℕ) i =>
      if i ∈ acc.2 then acc
      else
        match codeBlocks[i]? with
        | none => acc
        | some block1 =>
            let inner := (List.range' (i + 1) (n - (i + 1))).foldl
              (fun (acc2 : ℕ × List ℕ) j =>
                if j ∈ acc2.2 then acc2
                else
                  match codeBlocks[j]? with
                  | none => acc2
                  | some block2 =>
                      if 85/100 ≤ calculateSimilarity block1.tokens block2.tokens
                      then (acc2.1 + 1, j :: acc2.2)
                      else acc2)
              (0, acc.2)
            if 0 < inner.1 then (acc.1 ++ [dupMetric block1 inner.1], inner.2)
            else (acc.1, inner.2))
    ([], [])
  result.1

/-- The source text and position data of one function-like node, as handed to
`extractCodeBlock` by the parser's AST walk. -/
structure FunctionUnit where
  filePath : String
  text : String
  startLine : ℕ
  endLine : ℕ
  functionName : Option String := none
deriving DecidableEq, Repr

/-- `DuplicationDetector.extractCodeBlock`: tokenize the node's source text
into a `CodeBlock`. -/
def extractCodeBlock (f : FunctionUnit) : CodeBlock :=
  { filePath := f.filePath
    tokens := tokenize f.text
    startLine := f.startLine
    endLine := f.endLine
    functionName := f.functionName }

/-- The accumulation performed by `DuplicationDetector.analyzeFile` over the
function-like nodes of the analysis run: a block is retained only when its
normalized token string has at least `MIN_BLOCK_SIZE = 50` characters. -/
def DuplicationDetector.analyzeFunctions (fs : List FunctionUnit) :
    List CodeBlock :=
  fs.foldl
    (fun blocks f =>
      let block := extractCodeBlock f
      if 50 ≤ block.tokens.length then blocks ++ [block] else blocks)
    []

/-- C6 — When exactly two analyzed function-like units have source texts
that normalize to the same token string (identical up to whitespace runs and
comments) of length at least 50, `detectDuplicates` reports exactly one
`code-duplication` Metric, attached to the first-encountered block, with
value 1 — not two metrics. -/
theorem duplicate_pair_single_metric (f1 f2 : FunctionUnit)
    (heq : tokenize f1.text = tokenize f2.text)
    (hlen : 50 ≤ (tokenize f1.text).length) :
    DuplicationDetector.detectDuplicates
        (DuplicationDetector.analyzeFunctions [f1, f2]) =
      [dupMetric (extractCodeBlock f1) 1] := by
  have hlen2 : 50 ≤ (tokenize f2.text).length := heq ▸ hlen
  have hblocks : DuplicationDetector.analyzeFunctions [f1, f2] =
      [extractCodeBlock f1, extractCodeBlock f2] := by
    simp [DuplicationDetector.analyzeFunctions, extractCodeBlock, hlen, hlen2]
  rw [hblocks]
  have hsim : calculateSimilarity (extractCodeBlock f1).tokens
      (extractCodeBlock f2).tokens = 1 := by
    simp [calculateSimilarity, extractCodeBlock, heq]
  simp [DuplicationDetector.detectDuplicates, List.range_succ, hsim,
    List.range']
  norm_num

/-- Witness for C6: the same arrow function written with different line
breaks and spacing. -/
theorem duplicate_pair_single_metric_witness :
    tokenize "const add = (first,\n  second)   =>   first + second * 1000000;" =
      tokenize "const add = (first, second) => first + second * 1000000;" ∧
    50 ≤ (tokenize
      "const add = (first,\n  second)   =>   first + second * 1000000;").length ∧
    DuplicationDetector.detectDuplicates
        (DuplicationDetector.analyzeFunctions
          [⟨"a.ts", "const add = (first,\n  second)   =>   first + second * 1000000;",
            1, 2, none⟩,
           ⟨"b.ts", "const add = (first, second) => first + second * 1000000;",
            10, 10, none⟩]) =
      [dupMetric
        (extractCodeBlock
          ⟨"a.ts", "const add = (first,\n  second)   =>   first + second * 1000000;",
            1, 2, none⟩) 1] :=
  ⟨by decide, by decide,
    duplicate_pair_single_metric
      ⟨"a.ts", "const add = (first,\n  second)   =>   first + second * 1000000;",
        1, 2, none⟩
      ⟨"b.ts", "const add = (first, second) => first + second * 1000000;",
        10, 10, none⟩
      (by decide) (by decide)⟩

/-! ## Metric extractor (`TypeScriptParser.ts`): complexity and nesting depth

The TypeScript AST is modelled as a rose tree of nodes carrying their
`SyntaxKind` (and, for binary expressions, the operator token's kind);
`ts.forEachChild` is the `children` list. -/

/-- The `ts.SyntaxKind` values relevant to the extractor. -/
inductive SyntaxKind where
  | ifStatement
  | forStatement
  | forInStatement
  | forOfStatement
  | whileStatement
  | doStatement
  | caseClause
  | conditionalExpression
  | catchClause
  | block
  | switchStatement
  | tryStatement
  | binaryExpression
  | functionDeclaration
  | methodDeclaration
  | arrowFunction
  | functionExpression
  | constructorDeclaration
  | ampersandAmpersandToken
  | barBarToken
  | returnStatement
  | callExpression
  | identifier
  | otherKind
deriving DecidableEq, Repr

/-- A parsed AST node: its kind, the operator-token kind when the node is a
binary expression, and its `forEachChild` children. -/
inductive TsNode where
  | mk (kind : SyntaxKind) (operatorToken : Option SyntaxKind)
      (children : List TsNode)

/-- `MetricExtractor.COMPLEXITY_KINDS`. -/
def COMPLEXITY_KINDS : List SyntaxKind :=
  [.ifStatement, .forStatement, .forInStatement, .forOfStatement,
   .whileStatement, .doStatement, .caseClause, .conditionalExpression,
   .catchClause]

/-- `MetricExtractor.NESTING_KINDS`. -/
def NESTING_KINDS : List SyntaxKind :=
  [.block, .ifStatement, .forStatement, .forInStatement, .forOfStatement,
   .whileStatement, .doStatement, .switchStatement, .tryStatement]

/-- `MetricExtractor.isFunctionNode`: function declaration, method, arrow
function, function expression or constructor. -/
def isFunctionNode (n : TsNode) : Bool :=
  match n with
  | .mk k _ _ =>
      k = .functionDeclaration || k = .methodDeclaration ||
      k = .arrowFunction || k = .functionExpression ||
      k = .constructorDeclaration

/-- The per-node increment of `countDecisionPoints`: 1 for a
`COMPLEXITY_KINDS` node, otherwise 1 for a binary expression whose operator
is `&&` or `||`, otherwise 0. -/
def decisionIncrement (k : SyntaxKind) (op : Option SyntaxKind) : ℕ :=
  if k ∈ COMPLEXITY_KINDS then 1
  else if k = .binaryExpression ∧
      (op = some .ampersandAmpersandToken ∨ op = some .barBarToken) then 1
  else 0

mutual

/-- The `countDecisionPoints` closure of
`MetricExtractor.calculateComplexity`: a full recursive descent of the whole
subtree (`ts.forEachChild` recursion), with *no* stop at nested
function-like nodes. -/
def countDecisionPoints : TsNode → ℕ
  | .mk k op ch => decisionIncrement k op + countDecisionPointsList ch

/-- `countDecisionPoints` over a child list. -/
def countDecisionPointsList : List TsNode → ℕ
  | [] => 0
  | n :: rest => countDecisionPoints n + countDecisionPointsList rest

end

/-- `MetricExtractor.calculateComplexity`: base complexity 1 plus one per
decision point found by the full descent. -/
def MetricExtractor.calculateComplexity (node : TsNode) : ℕ :=
  1 + countDecisionPoints node

mutual

/-- The `traverse` closure of `MetricExtractor.calculateNestingDepth`: the
running maximum of `currentDepth` over all nodes whose kind is in
`NESTING_KINDS`, where `currentDepth` is incremented at exactly those
nodes. -/
def nestingDepthFrom : TsNode → ℕ → ℕ
  | .mk k _ ch, depth =>
      if k ∈ NESTING_KINDS then
        max (depth + 1) (nestingDepthFromList ch (depth + 1))
      else nestingDepthFromList ch depth

/-- `traverse` over a child list (`Math.max` of the children's maxima, 0 for
no children). -/
def nestingDepthFromList : List TsNode → ℕ → ℕ
  | [], _ => 0
  | n :: rest, depth =>
      max (nestingDepthFrom n depth) (nestingDepthFromList rest depth)

end

/-- `MetricExtractor.calculateNestingDepth`: the traversal starts at the
function node itself with depth 0. -/
def MetricExtractor.calculateNestingDepth (node : TsNode) : ℕ :=
  nestingDepthFrom node 0

/-- The `nesting-depth` metric emission of
`MetricExtractor.extractFunctionMetrics`: the metric is pushed only when the
computed maximum depth is positive (source locations are not represented in
the node model and are omitted). -/
def MetricExtractor.nestingDepthMetrics (filePath functionName : String)
    (node : TsNode) : List Metric :=
  let maxDepth := MetricExtractor.calculateNestingDepth node
  if 0 < maxDepth then
    [{ name := "nesting-depth", value := maxDepth, filePath := filePath,
       location := none, context := some functionName }]
  else []

/-- A node is a decision construct when its kind is in `COMPLEXITY_KINDS`,
or it is a binary expression with operator `&&` or `||`. -/
def isDecisionConstruct (n : TsNode) : Bool :=
  match n with
  | .mk k op _ =>
      if k ∈ COMPLEXITY_KINDS then true
      else if k = .binaryExpression ∧
          (op = some .ampersandAmpersandToken ∨ op = some .barBarToken) then
        true
      else false

theorem decisionIncrement_eq (k : SyntaxKind) (op : Option SyntaxKind)
    (ch : List TsNode) :
    decisionIncrement k op =
      if isDecisionConstruct (.mk k op ch) then 1 else 0 := by
  simp only [decisionIncrement, isDecisionConstruct]
  split_ifs <;> simp_all

mutual

/-- All nodes of a subtree, in preorder (spec-side). -/
def subtreeNodes : TsNode → List TsNode
  | .mk k op ch => .mk k op ch :: subtreeNodesList ch

/-- All nodes of a forest, in preorder (spec-side). -/
def subtreeNodesList : List TsNode → List TsNode
  | [] => []
  | n :: rest => subtreeNodes n ++ subtreeNodesList rest

end

mutual

/-- The claim-side decision count: decision constructs of the subtree that
are *outside* every nested function-like node (the descent does not enter
function-like children). -/
def decisionsOutsideNested : TsNode → ℕ
  | .mk k op ch => decisionIncrement k op + decisionsOutsideNestedList ch

/-- Claim-side decision count over a child list, skipping function-like
nodes. -/
def decisionsOutsideNestedList : List TsNode → ℕ
  | [] => 0
  | n :: rest =>
      (if isFunctionNode n then 0 else decisionsOutsideNested n) +
        decisionsOutsideNestedList rest

end

mutual

theorem countDecisionPoints_eq_filter (n : TsNode) :
    countDecisionPoints n =
      ((subtreeNodes n).filter isDecisionConstruct).length := by
  match n with
  | .mk k op ch =>
      rw [countDecisionPoints, subtreeNodes, countDecisionPointsList_eq_filter ch,
        decisionIncrement_eq k op ch]
      cases h : isDecisionConstruct (.mk k op ch) <;>
        simp [List.filter_cons, h] <;> omega

theorem countDecisionPointsList_eq_filter (l : List TsNode) :
    countDecisionPointsList l =
      ((subtreeNodesList l).filter isDecisionConstruct).length := by
  match l with
  | [] => rfl
  | n :: rest =>
      rw [countDecisionPointsList, subtreeNodesList,
        countDecisionPoints_eq_filter n, countDecisionPointsList_eq_filter rest]
      simp [List.filter_append]

end

/-- An outer function declaration whose body's only decision construct (an
`if`) sits inside a nested arrow function. -/
def nestedIfExample : TsNode :=
  .mk .functionDeclaration none
    [.mk .block none
      [.mk .arrowFunction none
        [.mk .block none
          [.mk .ifStatement none []]]]]

/-- C2 counterexample — on `nestedIfExample` the outer function's computed
cyclomatic complexity is 2, not the 1 predicted by the claim (1 plus the
decision constructs outside nested function-like nodes): `countDecisionPoints`
recurses into the nested arrow function and counts its `if`. -/
theorem nested_function_constructs_counted_counterexample :
    MetricExtractor.calculateComplexity nestedIfExample = 2 ∧
    1 + decisionsOutsideNested nestedIfExample = 1 ∧
    MetricExtractor.calculateComplexity nestedIfExample ≠
      1 + decisionsOutsideNested nestedIfExample := by
  refine ⟨by decide, by decide, by decide⟩

/-- C2 (amended) — the complexity of every function-like unit is 1 plus the
number of decision constructs in its *entire* subtree, nested function-like
nodes included: decision constructs inside nested functions *do* increase
the outer unit's Metric (each nested function additionally starts its own
count when visited, which is this same statement applied to it). -/
theorem complexity_counts_nested_constructs (node : TsNode) :
    MetricExtractor.calculateComplexity node =
      1 + ((subtreeNodes node).filter isDecisionConstruct).length := by
  rw [MetricExtractor.calculateComplexity, countDecisionPoints_eq_filter]

mutual

/-- Spec-side nesting measure: the greatest number of `NESTING_KINDS` nodes
on any root-to-leaf path of the subtree (the node itself included). -/
def nestingChain : TsNode → ℕ
  | .mk k _ ch =>
      (if k ∈ NESTING_KINDS then 1 else 0) + nestingChainList ch

/-- `nestingChain` maximized over a forest. -/
def nestingChainList : List TsNode → ℕ
  | [] => 0
  | n :: rest => max (nestingChain n) (nestingChainList rest)

end

mutual

theorem nestingDepthFrom_eq (n : TsNode) (d : ℕ) :
    nestingDepthFrom n d =
      if nestingChain n = 0 then 0 else d + nestingChain n := by
  match n with
  | .mk k op ch =>
      rw [nestingDepthFrom, nestingChain,
        nestingDepthFromList_eq ch (d + 1), nestingDepthFromList_eq ch d,
        Nat.max_def]
      split_ifs <;> omega

theorem nestingDepthFromList_eq (l : List TsNode) (d : ℕ) :
    nestingDepthFromList l d =
      if nestingChainList l = 0 then 0 else d + nestingChainList l := by
  match l with
  | [] => rfl
  | n :: rest =>
      rw [nestingDepthFromList, nestingChainList, nestingDepthFrom_eq n d,
        nestingDepthFromList_eq rest d, Nat.max_def]
      split_ifs <;> omega

end

/-- A named function whose block body contains no nesting construct. -/
def trivialFunctionExample : TsNode :=
  .mk .functionDeclaration none
    [.mk .identifier none [],
     .mk .block none [.mk .returnStatement none []]]

/-- C8 counterexample — `trivialFunctionExample` has a block body containing
no nesting construct, yet its computed nesting depth is 1 (the body `Block`
itself is in `NESTING_KINDS`) and a `nesting-depth` Metric *is* emitted,
contradicting the claimed depth 0 / no metric. -/
theorem body_block_counted_counterexample :
    MetricExtractor.calculateNestingDepth trivialFunctionExample = 1 ∧
    MetricExtractor.nestingDepthMetrics "f.ts" "f" trivialFunctionExample =
      [{ name := "nesting-depth", value := 1, filePath := "f.ts",
         location := none, context := some "f" }] := by
  refine ⟨by decide, by decide⟩

/-- C8 (amended) — the nesting-depth Metric of a function-like unit is the
greatest number of block/if/loop/switch/try nodes on any descending path of
the function's subtree, the function's *own body block included* (depth
effectively starts at 1 for a block body, not 0); the metric is emitted
exactly when this value is positive, so a function whose block body contains
no further nesting construct has depth 1 and *does* emit a metric, while
only an expression-bodied function free of such constructs emits none. -/
theorem nesting_depth_counts_body_block :
    (∀ node : TsNode,
      MetricExtractor.calculateNestingDepth node = nestingChain node) ∧
    (∀ (fp fn : String) (node : TsNode),
      (MetricExtractor.nestingDepthMetrics fp fn node).length =
        if 0 < nestingChain node then 1 else 0) ∧
    (∀ (op : Option SyntaxKind) (body : List TsNode),
      MetricExtractor.calculateNestingDepth
          (.mk .functionDeclaration op [.mk .block none body]) =
        1 + nestingChainList body) := by
  have hchain : ∀ node : TsNode,
      MetricExtractor.calculateNestingDepth node = nestingChain node := by
    intro node
    rw [MetricExtractor.calculateNestingDepth, nestingDepthFrom_eq]
    split_ifs <;> omega
  refine ⟨hchain, ?_, ?_⟩
  · intro fp fn node
    rw [MetricExtractor.nestingDepthMetrics]
    simp only [hchain node]
    split_ifs <;> simp
  · intro op body
    rw [hchain, nestingChain, nestingChainList, nestingChain, nestingChainList]
    have hfn : SyntaxKind.functionDeclaration ∉ NESTING_KINDS := by decide
    have hbl : SyntaxKind.block ∈ NESTING_KINDS := by decide
    rw [if_neg hfn, if_pos hbl]
    omega
